import Mathlib

/-!
Verification of the URL-to-timestamp resolution and interval-computation
pipeline of `src/app.py` (asu-photo-web).

The Python source is shallowly embedded: strings are Lean `String`s
(processed as `List Char` where convenient, ASCII digits model the
regex digit class), Python `datetime` values become the `Timestamp`
structure with the validity test of the `datetime` constructor, the
module-level resolution cache becomes an explicitly threaded
association list, and the HTTP fetch becomes an oracle
`fetch : String → Option String` returning the final resolved URL
(`none` models any transport-level exception).  `pandas` dataframes
become lists of named columns, each cell either a string or a
non-string value carried with its `str(...)` rendering.
-/

set_option maxRecDepth 4000

/-- A calendar timestamp, the embedding of a Python `datetime.datetime`
with second resolution. -/
structure Timestamp where
  year : Nat
  month : Nat
  day : Nat
  hour : Nat
  minute : Nat
  second : Nat
deriving DecidableEq, Repr

/-- A spreadsheet cell value as seen from Python: either an actual `str`,
or any other object carried together with its `str(...)` rendering. -/
inductive Cell where
  | str (s : String)
  | nonStr (rendering : String)
deriving DecidableEq, Repr

/-- `str(c)` applied to a cell value. -/
def cellAsStr : Cell → String
  | Cell.str s => s
  | Cell.nonStr r => r

/-- Gregorian leap-year test, as in Python `calendar`/`datetime`. -/
def isLeapYear (y : Nat) : Bool :=
  y % 4 == 0 && (y % 100 != 0 || y % 400 == 0)

/-- Number of days of month `m` of year `y` (Python `datetime` rules). -/
def daysInMonth (y m : Nat) : Nat :=
  if m = 2 then (if isLeapYear y then 29 else 28)
  else if m = 4 ∨ m = 6 ∨ m = 9 ∨ m = 11 then 30
  else 31

/-- The validity test of the `datetime.datetime` constructor: the
constructor raises `ValueError` exactly when this is false
(`MINYEAR = 1`, `MAXYEAR = 9999`). -/
def isValidDatetime (y mo d h mi s : Nat) : Bool :=
  decide (1 ≤ y) && decide (y ≤ 9999) && decide (1 ≤ mo) && decide (mo ≤ 12) &&
  decide (1 ≤ d) && decide (d ≤ daysInMonth y mo) &&
  decide (h ≤ 23) && decide (mi ≤ 59) && decide (s ≤ 59)

/-- `datetime.datetime(y, mo, d, h, mi, s)` wrapped in the
`try/except ValueError` of `extract_datetime_from_string`. -/
def mkDatetime (y mo d h mi s : Nat) : Option Timestamp :=
  if isValidDatetime y mo d h mi s then some ⟨y, mo, d, h, mi, s⟩ else none

/-- The literal marker of the regex `saved-(\d{8})_(\d{6})`. -/
def savedMarker : List Char := ['s', 'a', 'v', 'e', 'd', '-']

/-- Drop an expected literal from the front of a character list;
`none` when the literal is not there. -/
def dropLit : List Char → List Char → Option (List Char)
  | [], l => some l
  | _ :: _, [] => none
  | c :: p, x :: l => if x = c then dropLit p l else none

/-- Take exactly `n` ASCII digits from the front of a character list,
returning them together with the remainder (the `\d{n}` group). -/
def takeDigits : Nat → List Char → Option (List Char × List Char)
  | 0, l => some ([], l)
  | _ + 1, [] => none
  | n + 1, c :: l =>
    if c.isDigit then
      match takeDigits n l with
      | none => none
      | some (d, r) => some (c :: d, r)
    else none

/-- Match of the regex `saved-(\d{8})_(\d{6})` anchored at the head of the
list; on success returns the two captured groups. -/
def matchAt (l : List Char) : Option (List Char × List Char) :=
  match dropLit savedMarker l with
  | none => none
  | some l1 =>
    match takeDigits 8 l1 with
    | none => none
    | some (d8, l2) =>
      match l2 with
      | '_' :: l3 =>
        match takeDigits 6 l3 with
        | none => none
        | some (t6, _) => some (d8, t6)
      | _ => none

/-- `re.search`: the leftmost match of the pattern in the list. -/
def searchSaved : List Char → Option (List Char × List Char)
  | [] => none
  | c :: l =>
    match matchAt (c :: l) with
    | some p => some p
    | none => searchSaved l

/-- `int(...)` on a list of ASCII digit characters. -/
def digitsToNat (l : List Char) : Nat :=
  l.foldl (fun a c => a * 10 + (c.toNat - 48)) 0

/-- Embedding of `extract_datetime_from_string` (src/app.py lines 17-35):
non-strings yield `None`; otherwise the first `saved-YYYYMMDD_HHMMSS`
match is split into components and fed to the `datetime` constructor,
`ValueError` becoming `None`. -/
def extract_datetime_from_string (v : Cell) : Option Timestamp :=
  match v with
  | Cell.nonStr _ => none
  | Cell.str s =>
    match searchSaved s.data with
    | none => none
    | some (dp, tp) =>
      mkDatetime (digitsToNat (dp.take 4)) (digitsToNat ((dp.drop 4).take 2))
        (digitsToNat ((dp.drop 6).take 2)) (digitsToNat (tp.take 2))
        (digitsToNat ((tp.drop 2).take 2)) (digitsToNat ((tp.drop 4).take 2))

theorem searchSaved_of_none (l : List Char) (h : ∀ i, matchAt (l.drop i) = none) :
    searchSaved l = none := by
  induction l with
  | nil => rfl
  | cons c t ih =>
    have h0 := h 0
    simp only [List.drop] at h0
    simp only [searchSaved, h0]
    exact ih (fun i => h (i + 1))

theorem searchSaved_of_matchAt (l : List Char) (i : Nat) (p : List Char × List Char)
    (hm : matchAt (l.drop i) = some p) (hmin : ∀ j, j < i → matchAt (l.drop j) = none) :
    searchSaved l = some p := by
  induction l generalizing i with
  | nil =>
    rw [List.drop_nil] at hm
    simp [matchAt, dropLit, savedMarker] at hm
  | cons c t ih =>
    cases i with
    | zero =>
      rw [List.drop_zero] at hm
      simp only [searchSaved, hm]
    | succ n =>
      have h0 := hmin 0 (Nat.succ_pos n)
      rw [List.drop_zero] at h0
      simp only [searchSaved, h0]
      exact ih n hm (fun j hj => hmin (j + 1) (Nat.succ_lt_succ hj))

/-- C1: for a non-string input `extract_datetime_from_string` returns `None`;
for a string with no occurrence of the pattern `saved-` + 8 digits + `_` +
6 digits it returns `None`; and when the first (leftmost) match exists, the
function returns exactly the timestamp encoded by that match when its
components form a valid calendar date-time, and `None` when they do not.
No error is ever raised (the embedding is a total function). -/
theorem extract_c1 :
    (∀ r, extract_datetime_from_string (Cell.nonStr r) = none) ∧
    (∀ s : String, (∀ i, matchAt (s.data.drop i) = none) →
      extract_datetime_from_string (Cell.str s) = none) ∧
    (∀ (s : String) (i : Nat) (d8 t6 : List Char),
      matchAt (s.data.drop i) = some (d8, t6) →
      (∀ j, j < i → matchAt (s.data.drop j) = none) →
      ((isValidDatetime (digitsToNat (d8.take 4)) (digitsToNat ((d8.drop 4).take 2))
          (digitsToNat ((d8.drop 6).take 2)) (digitsToNat (t6.take 2))
          (digitsToNat ((t6.drop 2).take 2)) (digitsToNat ((t6.drop 4).take 2)) = true →
        extract_datetime_from_string (Cell.str s) =
          some ⟨digitsToNat (d8.take 4), digitsToNat ((d8.drop 4).take 2),
            digitsToNat ((d8.drop 6).take 2), digitsToNat (t6.take 2),
            digitsToNat ((t6.drop 2).take 2), digitsToNat ((t6.drop 4).take 2)⟩) ∧
       (isValidDatetime (digitsToNat (d8.take 4)) (digitsToNat ((d8.drop 4).take 2))
          (digitsToNat ((d8.drop 6).take 2)) (digitsToNat (t6.take 2))
          (digitsToNat ((t6.drop 2).take 2)) (digitsToNat ((t6.drop 4).take 2)) = false →
        extract_datetime_from_string (Cell.str s) = none))) := by
  refine ⟨fun r => rfl, fun s h => ?_, fun s i d8 t6 hm hmin => ?_⟩
  · simp only [extract_datetime_from_string, searchSaved_of_none s.data h]
  · have hs := searchSaved_of_matchAt s.data i (d8, t6) hm hmin
    constructor
    · intro hv
      simp only [extract_datetime_from_string, hs, mkDatetime, hv, if_true]
    · intro hv
      simp only [extract_datetime_from_string, hs, mkDatetime, hv, Bool.false_eq_true,
        if_false]

/-- Concrete instances of `extract_c1`: a non-string, a string with no
match, a string whose first match is valid, and a string whose first
match has month 13. -/
theorem extract_c1_w :
    extract_datetime_from_string (Cell.nonStr "12345") = none ∧
    extract_datetime_from_string (Cell.str "no marker here") = none ∧
    extract_datetime_from_string (Cell.str "xxsaved-20240131_235959.jpg") =
      some ⟨2024, 1, 31, 23, 59, 59⟩ ∧
    extract_datetime_from_string (Cell.str "xxsaved-20241301_104500.jpg") = none := by
  refine ⟨extract_c1.1 "12345", ?_, ?_, ?_⟩
  · refine extract_c1.2.1 "no marker here" (fun i => ?_)
    rcases Nat.lt_or_ge i 14 with h | h
    · interval_cases i <;> decide
    · rw [List.drop_eq_nil_of_le (by simpa using h)]
      decide
  · have h := (extract_c1.2.2 "xxsaved-20240131_235959.jpg" 2
      ['2', '0', '2', '4', '0', '1', '3', '1'] ['2', '3', '5', '9', '5', '9']
      (by decide) (by decide)).1 (by decide)
    exact h.trans (by decide)
  · exact (extract_c1.2.2 "xxsaved-20241301_104500.jpg" 2
      ['2', '0', '2', '4', '1', '3', '0', '1'] ['1', '0', '4', '5', '0', '0']
      (by decide) (by decide)).2 (by decide)

/-- Whitespace as removed by Python `str.strip()` (ASCII whitespace). -/
def isSpaceChar (c : Char) : Bool :=
  c = ' ' || c = '\t' || c = '\n' || c = '\r' || c = '\x0b' || c = '\x0c'

/-- `str.strip()` on a character list. -/
def stripChars (l : List Char) : List Char :=
  ((l.dropWhile isSpaceChar).reverse.dropWhile isSpaceChar).reverse

/-- `raw_url.strip()`. -/
def pyStrip (s : String) : String := ⟨stripChars s.data⟩

/-- The character class of `str.lstrip("@")`. -/
def isAtChar (c : Char) : Bool := c = '@'

/-- `str.lstrip("@")` on a character list: removes every leading `@`. -/
def lstripAtAll (l : List Char) : List Char := l.dropWhile isAtChar

/-- The normalization `raw_url.strip().lstrip("@")` of
`get_datetime_from_url` (src/app.py line 48). -/
def normalizeUrl (s : String) : String := ⟨lstripAtAll (stripChars s.data)⟩

/-- The module-level `_url_datetime_cache`: normalized URL → cached
resolution result (`none` = resolution failed). -/
abbrev Cache := List (String × Option Timestamp)

/-- `url in cache` / `cache[url]` on the association-list model
(new entries are consed in front, so the first hit is the binding). -/
def cacheLookup : Cache → String → Option (Option Timestamp)
  | [], _ => none
  | (k, v) :: rest, key => if k = key then some v else cacheLookup rest key

/-- The body of the `try` block: `requests.get(url, ...).url` fed to
`extract_datetime_from_string`; a failing fetch (`none`) models any
exception and yields `None`. -/
def resolveFetch (fetch : String → Option String) (url : String) : Option Timestamp :=
  match fetch url with
  | some finalUrl => extract_datetime_from_string (Cell.str finalUrl)
  | none => none

/-- Result of one `get_datetime_from_url` call: the returned value, the
cache afterwards, and whether an HTTP fetch was attempted. -/
structure FetchResult where
  result : Option Timestamp
  cache : Cache
  fetched : Bool
deriving DecidableEq, Repr

/-- Embedding of `get_datetime_from_url` (src/app.py lines 38-61) with
the cache threaded explicitly and the HTTP layer as the oracle `fetch`. -/
def get_datetime_from_url (fetch : String → Option String) (cache : Cache)
    (raw : Cell) : FetchResult :=
  match raw with
  | Cell.nonStr _ => ⟨none, cache, false⟩
  | Cell.str s =>
    if pyStrip s = "" then ⟨none, cache, false⟩
    else
      match cacheLookup cache (normalizeUrl s) with
      | some v => ⟨v, cache, false⟩
      | none =>
        ⟨resolveFetch fetch (normalizeUrl s),
          (normalizeUrl s, resolveFetch fetch (normalizeUrl s)) :: cache, true⟩

theorem gdfu_nonStr (fetch : String → Option String) (cache : Cache) (r : String) :
    get_datetime_from_url fetch cache (Cell.nonStr r) = ⟨none, cache, false⟩ := rfl

theorem gdfu_empty (fetch : String → Option String) (cache : Cache) (s : String)
    (h : pyStrip s = "") :
    get_datetime_from_url fetch cache (Cell.str s) = ⟨none, cache, false⟩ := by
  simp only [get_datetime_from_url, h, if_true]

theorem gdfu_hit (fetch : String → Option String) (cache : Cache) (s : String)
    (v : Option Timestamp) (hne : pyStrip s ≠ "")
    (hl : cacheLookup cache (normalizeUrl s) = some v) :
    get_datetime_from_url fetch cache (Cell.str s) = ⟨v, cache, false⟩ := by
  simp only [get_datetime_from_url, hne, if_false, hl]

theorem gdfu_miss (fetch : String → Option String) (cache : Cache) (s : String)
    (hne : pyStrip s ≠ "") (hl : cacheLookup cache (normalizeUrl s) = none) :
    get_datetime_from_url fetch cache (Cell.str s) =
      ⟨resolveFetch fetch (normalizeUrl s),
        (normalizeUrl s, resolveFetch fetch (normalizeUrl s)) :: cache, true⟩ := by
  simp only [get_datetime_from_url, hne, if_false, hl]

theorem gdfu_lookup_after (fetch : String → Option String) (cache : Cache)
    (s : String) (hne : pyStrip s ≠ "") :
    cacheLookup ((get_datetime_from_url fetch cache (Cell.str s)).cache)
        (normalizeUrl s) =
      some ((get_datetime_from_url fetch cache (Cell.str s)).result) := by
  cases hl : cacheLookup cache (normalizeUrl s) with
  | some v => rw [gdfu_hit fetch cache s v hne hl]; exact hl
  | none => rw [gdfu_miss fetch cache s hne hl]; simp [cacheLookup]

theorem gdfu_preserve (fetch : String → Option String) (cache : Cache) (raw : Cell)
    (k : String) (v : Option Timestamp) (h : cacheLookup cache k = some v) :
    cacheLookup ((get_datetime_from_url fetch cache raw).cache) k = some v := by
  cases raw with
  | nonStr r => rw [gdfu_nonStr]; exact h
  | str s =>
    by_cases hne : pyStrip s = ""
    · rw [gdfu_empty fetch cache s hne]; exact h
    · cases hl : cacheLookup cache (normalizeUrl s) with
      | some w => rw [gdfu_hit fetch cache s w hne hl]; exact h
      | none =>
        rw [gdfu_miss fetch cache s hne hl]
        have hk : normalizeUrl s ≠ k := by
          intro he
          rw [he, h] at hl
          exact Option.noConfusion hl
        simp only [cacheLookup, hk, if_false]
        exact h

/-- C3: the resolution result for a normalized URL is computed at most
once.  (1) A first call on a guard-passing input normalizing to `k`
leaves the cache with an entry at `k` equal to the value it returned;
(2) any other call, on any input, preserves an existing entry;
(3) a call on any input normalizing to a cached key `k` returns the
cached value — even when that value is absence — performs no fetch, and
leaves the cache unchanged. -/
theorem cache_c3 (fetch : String → Option String) :
    (∀ (cache : Cache) (s : String), pyStrip s ≠ "" →
      cacheLookup ((get_datetime_from_url fetch cache (Cell.str s)).cache)
          (normalizeUrl s) =
        some ((get_datetime_from_url fetch cache (Cell.str s)).result)) ∧
    (∀ (cache : Cache) (raw : Cell) (k : String) (v : Option Timestamp),
      cacheLookup cache k = some v →
      cacheLookup ((get_datetime_from_url fetch cache raw).cache) k = some v) ∧
    (∀ (cache : Cache) (s : String) (v : Option Timestamp),
      pyStrip s ≠ "" → cacheLookup cache (normalizeUrl s) = some v →
      get_datetime_from_url fetch cache (Cell.str s) = ⟨v, cache, false⟩) :=
  ⟨fun cache s hne => gdfu_lookup_after fetch cache s hne,
   fun cache raw k v h => gdfu_preserve fetch cache raw k v h,
   fun cache s v hne hl => gdfu_hit fetch cache s v hne hl⟩

/-- Concrete instance of `cache_c3`: after a first (failing) resolution of
`"u"`, a second call written `"@u "` — same normalized key — is a pure
cache hit: it returns the cached absence, fetches nothing, changes
nothing. -/
theorem cache_c3_w :
    cacheLookup ((get_datetime_from_url (fun _ => none) [] (Cell.str "u")).cache) "u" =
      some ((get_datetime_from_url (fun _ => none) [] (Cell.str "u")).result) ∧
    get_datetime_from_url (fun _ => none) [("u", none)] (Cell.str "@u ") =
      ⟨none, [("u", none)], false⟩ := by
  constructor
  · have h := (cache_c3 (fun _ => none)).1 [] "u" (by decide)
    have hn : normalizeUrl "u" = "u" := by decide
    rw [hn] at h
    exact h
  · have h := (cache_c3 (fun _ => none)).2.2 [("u", none)] "@u " none (by decide)
      (by decide)
    exact h

/-- C7: `get_datetime_from_url` returns absence immediately — no fetch,
no cache write — on a non-string input and on a string whose trim is
empty; and on a cache miss whose fetch fails it converts the failure to
absence, stores that absence in the cache, and returns it (the embedding
is total: no exception propagates). -/
theorem resolver_c7 (fetch : String → Option String) :
    (∀ (cache : Cache) (r : String),
      get_datetime_from_url fetch cache (Cell.nonStr r) = ⟨none, cache, false⟩) ∧
    (∀ (cache : Cache) (s : String), pyStrip s = "" →
      get_datetime_from_url fetch cache (Cell.str s) = ⟨none, cache, false⟩) ∧
    (∀ (cache : Cache) (s : String), pyStrip s ≠ "" →
      cacheLookup cache (normalizeUrl s) = none → fetch (normalizeUrl s) = none →
      get_datetime_from_url fetch cache (Cell.str s) =
        ⟨none, (normalizeUrl s, none) :: cache, true⟩) := by
  refine ⟨fun cache r => gdfu_nonStr fetch cache r,
    fun cache s h => gdfu_empty fetch cache s h,
    fun cache s hne hl hf => ?_⟩
  have h := gdfu_miss fetch cache s hne hl
  rw [h]
  simp only [resolveFetch, hf]

/-- Concrete instances of `resolver_c7`: a non-string cell, a
whitespace-only string, and a failing fetch of `"bad url"`. -/
theorem resolver_c7_w :
    get_datetime_from_url (fun _ => none) [] (Cell.nonStr "nan") =
      ⟨none, [], false⟩ ∧
    get_datetime_from_url (fun _ => none) [] (Cell.str "   ") =
      ⟨none, [], false⟩ ∧
    get_datetime_from_url (fun _ => none) [] (Cell.str "bad url") =
      ⟨none, [("bad url", none)], true⟩ := by
  refine ⟨(resolver_c7 (fun _ => none)).1 [] "nan",
    (resolver_c7 (fun _ => none)).2.1 [] "   " (by decide), ?_⟩
  have h := (resolver_c7 (fun _ => none)).2.2 [] "bad url" (by decide) (by decide) rfl
  exact h.trans (by decide)

/-- Modelled from the spec: "trim surrounding whitespace, strip at most
one leading `@` character" — the normalization as the spec words it,
for comparison with the source's `normalizeUrl`. -/
def stripAtMostOneAt (s : String) : String :=
  match stripChars s.data with
  | '@' :: rest => ⟨rest⟩
  | l => ⟨l⟩

/-- C4 counterexample: the claim says a string with two leading `@`
characters loses exactly one of them, but `lstrip("@")` removes every
leading `@`: `"@@x"` normalizes to `"x"`, not to the `"@x"` the claim
(and `stripAtMostOneAt`) prescribes. -/
theorem normalize_c4_cx :
    normalizeUrl "@@x" = "x" ∧ stripAtMostOneAt "@@x" = "@x" ∧
    normalizeUrl "@@x" ≠ stripAtMostOneAt "@@x" := by
  refine ⟨by decide, by decide, by decide⟩

theorem dropWhile_all_append (p : Char → Bool) (pre l : List Char)
    (hpre : ∀ c ∈ pre, p c = true) (hl : ∀ c l2, l = c :: l2 → p c = false) :
    (pre ++ l).dropWhile p = l := by
  induction pre with
  | nil =>
    cases l with
    | nil => rfl
    | cons c l2 => simp only [List.nil_append, List.dropWhile_cons, hl c l2 rfl,
        Bool.false_eq_true, if_false]
  | cons c pre2 ih =>
    have hc := hpre c (List.mem_cons_self c pre2)
    simp only [List.cons_append, List.dropWhile_cons, hc, if_true]
    exact ih (fun d hd => hpre d (List.mem_cons_of_mem c hd))

/-- C4 amended: for a string cell, the resolver's normalization equals:
trim surrounding whitespace, then strip every leading `@` character (not
just one) — i.e. if the trimmed value splits as an all-`@` prefix
followed by a remainder not starting with `@`, the normalization is that
remainder. -/
theorem normalize_c4_amended (s : String) (pre l : List Char)
    (hsplit : stripChars s.data = pre ++ l)
    (hpre : ∀ c ∈ pre, c = '@')
    (hl : ∀ c l2, l = c :: l2 → c ≠ '@') :
    normalizeUrl s = ⟨l⟩ := by
  have hdrop : (pre ++ l).dropWhile isAtChar = l := by
    refine dropWhile_all_append isAtChar pre l (fun c hc => ?_) (fun c l2 he => ?_)
    · simp [isAtChar, hpre c hc]
    · simp only [isAtChar, decide_eq_false (hl c l2 he)]
  simp only [normalizeUrl, lstripAtAll, hsplit, hdrop]

/-- Concrete instance of `normalize_c4_amended`: the spec's own example
`"  @https://x/y  "` normalizes to `"https://x/y"`. -/
theorem normalize_c4_w : normalizeUrl "  @https://x/y  " = "https://x/y" := by
  have h := normalize_c4_amended "  @https://x/y  " ['@']
    ['h', 't', 't', 'p', 's', ':', '/', '/', 'x', '/', 'y'] (by decide)
    (by intro c hc; simpa using hc)
    (by
      intro c l2 he hc
      have : c = 'h' := (List.cons.injEq _ _ _ _ ▸ he.symm).1
      rw [this] at hc
      exact absurd hc (by decide))
  exact h.trans (by decide)

/-- C10: an input whose trim is non-empty but consists only of `@`
characters passes the emptiness guard (tested before `@`-stripping),
normalizes to the empty string, and the call leaves a cache entry under
key `""`; when `""` was not cached yet the call attempts resolution
(`fetched = true`) and writes its (failed) result under `""` — rather
than returning absence without a cache write. -/
theorem resolver_c10 (fetch : String → Option String) (cache : Cache) (s : String)
    (hne : stripChars s.data ≠ [])
    (hall : ∀ c ∈ stripChars s.data, c = '@') :
    pyStrip s ≠ "" ∧ normalizeUrl s = "" ∧
    (cacheLookup ((get_datetime_from_url fetch cache (Cell.str s)).cache) "").isSome ∧
    (cacheLookup cache "" = none →
      (get_datetime_from_url fetch cache (Cell.str s)).fetched = true ∧
      (get_datetime_from_url fetch cache (Cell.str s)).cache =
        ("", (get_datetime_from_url fetch cache (Cell.str s)).result) :: cache) := by
  have hstrip : pyStrip s ≠ "" := by
    intro h
    exact hne (congrArg String.data h)
  have hnorm : normalizeUrl s = "" := by
    have : lstripAtAll (stripChars s.data) = [] := by
      simp only [lstripAtAll, List.dropWhile_eq_nil_iff]
      intro c hc
      simp [isAtChar, hall c hc]
    simp only [normalizeUrl, this]
  refine ⟨hstrip, hnorm, ?_, fun hmiss => ?_⟩
  · have h := gdfu_lookup_after fetch cache s hstrip
    rw [hnorm] at h
    rw [h]
    rfl
  · have hl : cacheLookup cache (normalizeUrl s) = none := by rw [hnorm]; exact hmiss
    have h := gdfu_miss fetch cache s hstrip hl
    rw [h, hnorm]
    exact ⟨rfl, rfl⟩

/-- Concrete instance of `resolver_c10`: `" @@ "` (and `"@"`) normalize
to `""`; on an empty cache the `" @@ "` call fetches and caches under
`""`. -/
theorem resolver_c10_w :
    pyStrip " @@ " ≠ "" ∧ normalizeUrl " @@ " = "" ∧
    (cacheLookup ((get_datetime_from_url (fun _ => none) [] (Cell.str " @@ ")).cache)
      "").isSome ∧
    (cacheLookup ([] : Cache) "" = none →
      (get_datetime_from_url (fun _ => none) [] (Cell.str " @@ ")).fetched = true ∧
      (get_datetime_from_url (fun _ => none) [] (Cell.str " @@ ")).cache =
        ("", (get_datetime_from_url (fun _ => none) [] (Cell.str " @@ ")).result) ::
          []) :=
  resolver_c10 (fun _ => none) [] " @@ " (by decide) (by decide)

/-- Days in years `1 .. y-1` that get a leap day
(`(y-1)//4 - (y-1)//100 + (y-1)//400`, as in `datetime.date.toordinal`). -/
def leapsBefore (y : Nat) : Nat := (y - 1) / 4 - (y - 1) / 100 + (y - 1) / 400

/-- Days in the months before month `m` of a non-leap year. -/
def cumDaysBefore (m : Nat) : Nat :=
  match m with
  | 1 => 0
  | 2 => 31
  | 3 => 59
  | 4 => 90
  | 5 => 120
  | 6 => 151
  | 7 => 181
  | 8 => 212
  | 9 => 243
  | 10 => 273
  | 11 => 304
  | _ => 334

/-- Proleptic-Gregorian day number of a date (`date.toordinal() - 1`). -/
def toOrdinalDays (y m d : Nat) : Nat :=
  365 * (y - 1) + leapsBefore y + cumDaysBefore m +
    (if isLeapYear y ∧ 3 ≤ m then 1 else 0) + (d - 1)

/-- Seconds of a timestamp counted from 0001-01-01T00:00:00; the
difference of two values is exactly Python's
`(after - before).total_seconds()`. -/
def toSecs (t : Timestamp) : Nat :=
  toOrdinalDays t.year t.month t.day * 86400 +
    t.hour * 3600 + t.minute * 60 + t.second

/-- Embedding of `format_interval` (src/app.py lines 64-76); Python `//`
and `%` on ints are `Int.fdiv` and `Int.fmod`. -/
def format_interval (minutes : Option Int) : String :=
  match minutes with
  | none => ""
  | some m =>
    if m < 0 then "ошибка"
    else if m < 60 then toString m ++ " мин"
    else if Int.fmod m 60 = 0 then toString (Int.fdiv m 60) ++ " ч"
    else toString (Int.fdiv m 60) ++ " ч " ++ toString (Int.fmod m 60) ++ " мин"

/-- Embedding of the per-row interval computation of `process_dataframe`
(src/app.py lines 131-142): `minutes = int(delta.total_seconds() // 60)`
is the floor division of the signed second difference by 60. -/
def computeInterval (dtBefore dtAfter : Option Timestamp) : Option Int × String :=
  match dtBefore, dtAfter with
  | none, _ => (none, "")
  | _, none => (none, "")
  | some b, some a =>
    let minutes : Int := Int.fdiv ((toSecs a : Int) - (toSecs b : Int)) 60
    if minutes < 0 then (none, "ошибка")
    else (some minutes, format_interval (some minutes))

/-- C2: either timestamp absent gives `(absence, "")`; with both present
the minute count is the floor division of the second difference by 60;
a negative count gives `(absence, "ошибка")`; a non-negative count `m`
is returned with label `"<m> мин"` when `m < 60`, `"<h> ч"` when `m` is
a multiple of 60, and `"<h> ч <m'> мин"` otherwise. -/
theorem interval_c2 :
    (∀ a, computeInterval none a = (none, "")) ∧
    (∀ b, computeInterval b none = (none, "")) ∧
    (∀ b a : Timestamp,
      (Int.fdiv ((toSecs a : Int) - (toSecs b : Int)) 60 < 0 →
        computeInterval (some b) (some a) = (none, "ошибка")) ∧
      (0 ≤ Int.fdiv ((toSecs a : Int) - (toSecs b : Int)) 60 →
        Int.fdiv ((toSecs a : Int) - (toSecs b : Int)) 60 < 60 →
        computeInterval (some b) (some a) =
          (some (Int.fdiv ((toSecs a : Int) - (toSecs b : Int)) 60),
            toString (Int.fdiv ((toSecs a : Int) - (toSecs b : Int)) 60) ++ " мин")) ∧
      (60 ≤ Int.fdiv ((toSecs a : Int) - (toSecs b : Int)) 60 →
        Int.fmod (Int.fdiv ((toSecs a : Int) - (toSecs b : Int)) 60) 60 = 0 →
        computeInterval (some b) (some a) =
          (some (Int.fdiv ((toSecs a : Int) - (toSecs b : Int)) 60),
            toString (Int.fdiv (Int.fdiv ((toSecs a : Int) - (toSecs b : Int)) 60) 60) ++
              " ч")) ∧
      (60 ≤ Int.fdiv ((toSecs a : Int) - (toSecs b : Int)) 60 →
        Int.fmod (Int.fdiv ((toSecs a : Int) - (toSecs b : Int)) 60) 60 ≠ 0 →
        computeInterval (some b) (some a) =
          (some (Int.fdiv ((toSecs a : Int) - (toSecs b : Int)) 60),
            toString (Int.fdiv (Int.fdiv ((toSecs a : Int) - (toSecs b : Int)) 60) 60) ++
              " ч " ++
              toString (Int.fmod (Int.fdiv ((toSecs a : Int) - (toSecs b : Int)) 60) 60) ++
              " мин"))) := by
  refine ⟨fun a => by cases a <;> rfl, fun b => by cases b <;> rfl,
    fun b a => ⟨fun hneg => ?_, fun h0 h60 => ?_, fun h60 hm0 => ?_, fun h60 hmne => ?_⟩⟩
  · simp only [computeInterval, hneg, if_true]
  · have hnl : ¬ Int.fdiv ((toSecs a : Int) - (toSecs b : Int)) 60 < 0 :=
      not_lt.mpr h0
    simp only [computeInterval, hnl, if_false, format_interval, h60, if_true]
  · have h0 : (0 : Int) ≤ Int.fdiv ((toSecs a : Int) - (toSecs b : Int)) 60 :=
      le_trans (by decide) h60
    have hnl : ¬ Int.fdiv ((toSecs a : Int) - (toSecs b : Int)) 60 < 0 :=
      not_lt.mpr h0
    have hn60 : ¬ Int.fdiv ((toSecs a : Int) - (toSecs b : Int)) 60 < 60 :=
      not_lt.mpr h60
    simp only [computeInterval, hnl, if_false, format_interval, hn60, hm0, if_true]
  · have h0 : (0 : Int) ≤ Int.fdiv ((toSecs a : Int) - (toSecs b : Int)) 60 :=
      le_trans (by decide) h60
    have hnl : ¬ Int.fdiv ((toSecs a : Int) - (toSecs b : Int)) 60 < 0 :=
      not_lt.mpr h0
    have hn60 : ¬ Int.fdiv ((toSecs a : Int) - (toSecs b : Int)) 60 < 60 :=
      not_lt.mpr h60
    simp only [computeInterval, hnl, if_false, format_interval, hn60, hmne, if_false]

/-- Concrete instances of `interval_c2`: the four reference cases
45 → "45 мин", 85 → "1 ч 25 мин", inverted → error, absent → empty,
plus an exact multiple 120 → "2 ч". -/
theorem interval_c2_w :
    computeInterval (some ⟨2024, 1, 1, 10, 0, 0⟩) (some ⟨2024, 1, 1, 10, 45, 0⟩) =
      (some 45, "45 мин") ∧
    computeInterval (some ⟨2024, 1, 1, 10, 0, 0⟩) (some ⟨2024, 1, 1, 11, 25, 0⟩) =
      (some 85, "1 ч 25 мин") ∧
    computeInterval (some ⟨2024, 1, 1, 10, 0, 0⟩) (some ⟨2024, 1, 1, 12, 0, 0⟩) =
      (some 120, "2 ч") ∧
    computeInterval (some ⟨2024, 1, 1, 11, 0, 0⟩) (some ⟨2024, 1, 1, 10, 0, 0⟩) =
      (none, "ошибка") ∧
    computeInterval none (some ⟨2024, 1, 1, 10, 0, 0⟩) = (none, "") := by
  refine ⟨?_, ?_, ?_, ?_, interval_c2.1 (some ⟨2024, 1, 1, 10, 0, 0⟩)⟩
  · have h := (interval_c2.2.2 ⟨2024, 1, 1, 10, 0, 0⟩ ⟨2024, 1, 1, 10, 45, 0⟩).2.1
      (by decide) (by decide)
    exact h.trans (by decide)
  · have h := (interval_c2.2.2 ⟨2024, 1, 1, 10, 0, 0⟩ ⟨2024, 1, 1, 11, 25, 0⟩).2.2.2
      (by decide) (by decide)
    exact h.trans (by decide)
  · have h := (interval_c2.2.2 ⟨2024, 1, 1, 10, 0, 0⟩ ⟨2024, 1, 1, 12, 0, 0⟩).2.2.1
      (by decide) (by decide)
    exact h.trans (by decide)
  · exact (interval_c2.2.2 ⟨2024, 1, 1, 11, 0, 0⟩ ⟨2024, 1, 1, 10, 0, 0⟩).1 (by decide)

/-- Python `str.lower()` restricted to the character ranges the program
meets: ASCII letters and the Cyrillic block used by the header labels. -/
def pyLowerChar (c : Char) : Char :=
  if 'A' ≤ c ∧ c ≤ 'Z' then Char.ofNat (c.toNat + 32)
  else if 'А' ≤ c ∧ c ≤ 'Я' then Char.ofNat (c.toNat + 32)
  else if c = 'Ё' then 'ё'
  else c

/-- `str(c).strip().lower()` applied to a column header. -/
def normHeader (h : String) : String := ⟨(stripChars h.data).map pyLowerChar⟩

/-- A dataframe column: its header, whether `pd.api.types.is_object_dtype`
holds for it, and its cells. -/
structure Column where
  header : String
  isObjectDtype : Bool
  cells : List Cell
deriving DecidableEq, Repr

/-- A dataframe: an ordered list of named columns. -/
abbrev Df := List Column

/-- `{str(c).strip().lower(): c for c in df.columns}.get(label)`: the
dict comprehension lets a later duplicate key overwrite an earlier one,
so the last column whose normalized header equals `label` wins. -/
def findHeader : Df → String → Option String
  | [], _ => none
  | c :: rest, label =>
    match findHeader rest label with
    | some h => some h
    | none => if normHeader c.header = label then some c.header else none

/-- `"saved-" in l` as a substring test (`Series.str.contains("saved-")`;
the pattern has no regex metacharacters). -/
def containsSaved : List Char → Bool
  | [] => false
  | c :: l => ((dropLit savedMarker (c :: l)).isSome || containsSaved l)

/-- The fallback test of `detect_photo_columns`: object dtype and some
cell whose `str(...)` rendering contains `"saved-"`. -/
def colQualifies (c : Column) : Bool :=
  c.isObjectDtype && c.cells.any (fun v => containsSaved (cellAsStr v).data)

/-- The fallback collection loop of `detect_photo_columns`
(src/app.py lines 93-102): append qualifying column labels in scan
order, breaking as soon as two are collected. -/
def collectCandidates : List Column → List String → List String
  | [], acc => acc
  | c :: rest, acc =>
    let acc2 := if colQualifies c then acc ++ [c.header] else acc
    if 2 ≤ acc2.length then acc2 else collectCandidates rest acc2

/-- Embedding of `detect_photo_columns` (src/app.py lines 79-105). -/
def detect_photo_columns (df : Df) : Option String × Option String :=
  match findHeader df "фото до", findHeader df "фото после" with
  | some b, some a => (some b, some a)
  | _, _ =>
    match collectCandidates df [] with
    | c0 :: c1 :: _ => (some c0, some c1)
    | _ => (none, none)

theorem findHeader_some_norm (df : Df) (label b : String)
    (h : findHeader df label = some b) : normHeader b = label := by
  induction df with
  | nil => exact Option.noConfusion h
  | cons c rest ih =>
    simp only [findHeader] at h
    cases hr : findHeader rest label with
    | some b2 =>
      rw [hr] at h
      exact ih (hr.trans h)
    | none =>
      rw [hr] at h
      by_cases hc : normHeader c.header = label
      · rw [if_pos hc] at h
        rw [← Option.some.inj h]
        exact hc
      · rw [if_neg hc] at h
        exact Option.noConfusion h

theorem findHeader_of_mem (df : Df) (label : String)
    (h : ∃ c ∈ df, normHeader c.header = label) :
    ∃ b, findHeader df label = some b ∧ normHeader b = label := by
  suffices hs : ∃ b, findHeader df label = some b by
    obtain ⟨b, hb⟩ := hs
    exact ⟨b, hb, findHeader_some_norm df label b hb⟩
  induction df with
  | nil =>
    obtain ⟨c, hc, _⟩ := h
    exact absurd hc (List.not_mem_nil c)
  | cons c rest ih =>
    simp only [findHeader]
    cases hr : findHeader rest label with
    | some b => exact ⟨b, rfl⟩
    | none =>
      obtain ⟨d, hd, hnd⟩ := h
      rcases List.mem_cons.mp hd with he | hm
      · subst he
        exact ⟨d.header, by rw [if_pos hnd]⟩
      · obtain ⟨b, hb⟩ := ih ⟨d, hm, hnd⟩
        rw [hr] at hb
        exact Option.noConfusion hb

theorem findHeader_headers_only (df df2 : Df) (label : String)
    (h : df2.map Column.header = df.map Column.header) :
    findHeader df2 label = findHeader df label := by
  induction df generalizing df2 with
  | nil =>
    cases df2 with
    | nil => rfl
    | cons c rest => exact absurd h (by simp)
  | cons c rest ih =>
    cases df2 with
    | nil => exact absurd h (by simp)
    | cons c2 rest2 =>
      simp only [List.map_cons, List.cons.injEq] at h
      simp only [findHeader, ih rest2 h.2, h.1]

/-- C5: when columns with trimmed-lowercased headers equal to the two
literal labels exist, the exact-match pass returns that pair (the last
column for each label, per dict-comprehension overwrite) and the content
heuristic is never consulted: the result depends only on the header
list, not on any cell content. -/
theorem detect_c5 (df : Df)
    (hb : ∃ c ∈ df, normHeader c.header = "фото до")
    (ha : ∃ c ∈ df, normHeader c.header = "фото после") :
    ∃ b a, findHeader df "фото до" = some b ∧
      findHeader df "фото после" = some a ∧
      normHeader b = "фото до" ∧ normHeader a = "фото после" ∧
      detect_photo_columns df = (some b, some a) ∧
      ∀ df2 : Df, df2.map Column.header = df.map Column.header →
        detect_photo_columns df2 = (some b, some a) := by
  obtain ⟨b, hfb, hnb⟩ := findHeader_of_mem df "фото до" hb
  obtain ⟨a, hfa, hna⟩ := findHeader_of_mem df "фото после" ha
  refine ⟨b, a, hfb, hfa, hnb, hna, ?_, fun df2 h2 => ?_⟩
  · simp only [detect_photo_columns, hfb, hfa]
  · simp only [detect_photo_columns,
      findHeader_headers_only df df2 "фото до" h2,
      findHeader_headers_only df df2 "фото после" h2, hfb, hfa]

/-- Concrete instance of `detect_c5`: headers `" Фото ДО "` and
`"Фото ПОСЛЕ"` (stray case and whitespace) are detected by the exact
pass and the original labels returned. -/
theorem detect_c5_w :
    detect_photo_columns
      [⟨" Фото ДО ", false, []⟩, ⟨"Фото ПОСЛЕ", false, []⟩] =
      (some " Фото ДО ", some "Фото ПОСЛЕ") := by
  obtain ⟨b, a, hfb, hfa, _, _, hdet, _⟩ :=
    detect_c5 [⟨" Фото ДО ", false, []⟩, ⟨"Фото ПОСЛЕ", false, []⟩]
      (by decide) (by decide)
  have hb : b = " Фото ДО " := by
    have he : findHeader [⟨" Фото ДО ", false, []⟩, ⟨"Фото ПОСЛЕ", false, []⟩]
        "фото до" = some " Фото ДО " := by decide
    exact (Option.some.inj (he.symm.trans hfb)).symm
  have ha2 : a = "Фото ПОСЛЕ" := by
    have he : findHeader [⟨" Фото ДО ", false, []⟩, ⟨"Фото ПОСЛЕ", false, []⟩]
        "фото после" = some "Фото ПОСЛЕ" := by decide
    exact (Option.some.inj (he.symm.trans hfa)).symm
  rw [hb, ha2] at hdet
  exact hdet

theorem collectCandidates_eq (l : List Column) :
    ∀ acc : List String, acc.length < 2 →
      collectCandidates l acc =
        (acc ++ (l.filter colQualifies).map Column.header).take 2 := by
  induction l with
  | nil =>
    intro acc hacc
    simp only [collectCandidates, List.filter_nil, List.map_nil, List.append_nil]
    exact (List.take_of_length_le (Nat.le_of_lt hacc)).symm
  | cons c rest ih =>
    intro acc hacc
    have hstep : collectCandidates (c :: rest) acc =
        (if 2 ≤ (if colQualifies c then acc ++ [c.header] else acc).length
         then (if colQualifies c then acc ++ [c.header] else acc)
         else collectCandidates rest
           (if colQualifies c then acc ++ [c.header] else acc)) := rfl
    by_cases hq : colQualifies c = true
    · have hcond : (if colQualifies c then acc ++ [c.header] else acc) =
          acc ++ [c.header] := by
        rw [hq]
        exact if_pos rfl
      by_cases h2 : 2 ≤ (acc ++ [c.header]).length
      · have hlen : (acc ++ [c.header]).length = 2 := by
          simp only [List.length_append, List.length_singleton] at h2 ⊢
          omega
        have hred : collectCandidates (c :: rest) acc = acc ++ [c.header] := by
          rw [hstep, hcond]
          exact if_pos h2
        have harg : acc ++ (((c :: rest).filter colQualifies).map Column.header) =
            (acc ++ [c.header]) ++ ((rest.filter colQualifies).map Column.header) := by
          rw [List.filter_cons_of_pos hq, List.map_cons]
          simp [List.append_assoc]
        rw [hred, harg, List.take_append_eq_append_take, hlen, Nat.sub_self,
          List.take_zero, List.append_nil]
        exact (List.take_of_length_le (le_of_eq hlen)).symm
      · have hred : collectCandidates (c :: rest) acc =
            collectCandidates rest (acc ++ [c.header]) := by
          rw [hstep, hcond]
          exact if_neg h2
        rw [hred, ih (acc ++ [c.header]) (by
          simp only [List.length_append, List.length_singleton] at h2 ⊢
          omega)]
        rw [List.filter_cons_of_pos hq, List.map_cons]
        congr 1
        simp [List.append_assoc]
    · have hqf : colQualifies c = false := by simpa using hq
      have hcond : (if colQualifies c then acc ++ [c.header] else acc) = acc := by
        rw [hqf]
        exact if_neg Bool.false_ne_true
      have h2 : ¬ 2 ≤ acc.length := by omega
      have hred : collectCandidates (c :: rest) acc = collectCandidates rest acc := by
        rw [hstep, hcond]
        exact if_neg h2
      rw [hred, ih acc hacc, List.filter_cons_of_neg hq]

/-- C6: when the exact-header pass fails, the fallback scans columns in
natural order and returns the first two whose values are textual (object
dtype) with some value containing `"saved-"`, as (before, after) in that
left-to-right order; with fewer than two qualifying columns it returns
(absent, absent). -/
theorem detect_c6 (df : Df)
    (hfail : findHeader df "фото до" = none ∨ findHeader df "фото после" = none) :
    ((df.filter colQualifies).length < 2 → detect_photo_columns df = (none, none)) ∧
    (∀ c0 c1 rest, (df.filter colQualifies).map Column.header = c0 :: c1 :: rest →
      detect_photo_columns df = (some c0, some c1)) := by
  have hcands : collectCandidates df [] =
      ((df.filter colQualifies).map Column.header).take 2 := by
    have h := collectCandidates_eq df [] (by decide)
    simpa using h
  have hdet : detect_photo_columns df =
      (match collectCandidates df [] with
       | c0 :: c1 :: _ => (some c0, some c1)
       | _ => (none, none)) := by
    rcases hfail with hb | ha
    · simp only [detect_photo_columns, hb]
    · cases hb2 : findHeader df "фото до" with
      | none => simp only [detect_photo_columns, hb2]
      | some b => simp only [detect_photo_columns, hb2, ha]
  constructor
  · intro hlen
    rw [hdet, hcands]
    cases hf : (df.filter colQualifies).map Column.header with
    | nil => rfl
    | cons c0 tail =>
      cases tail with
      | nil => rfl
      | cons c1 tail2 =>
        have hlf := congrArg List.length hf
        simp only [List.length_map, List.length_cons] at hlf
        omega
  · intro c0 c1 rest hf
    rw [hdet, hcands, hf]
    rfl

/-- Concrete instances of `detect_c6`: three qualifying columns `A`, `B`,
`C` give `(A, B)` (stop after two, natural order); a single qualifying
column gives (absent, absent). -/
theorem detect_c6_w :
    detect_photo_columns
      [⟨"A", true, [Cell.str "x saved-20240101_100000"]⟩,
       ⟨"B", true, [Cell.nonStr "nan", Cell.str "y saved-20240101_104500"]⟩,
       ⟨"C", true, [Cell.str "z saved-20240101_110000"]⟩] =
      (some "A", some "B") ∧
    detect_photo_columns [⟨"A", true, [Cell.str "x saved-20240101_100000"]⟩] =
      (none, none) := by
  constructor
  · exact (detect_c6 _ (Or.inl (by decide))).2 "A" "B" ["C"] (by decide)
  · exact (detect_c6 _ (Or.inl (by decide))).1 (by decide)

/-- Number of rows of a dataframe (pandas keeps all columns the same
length; the head column carries it). -/
def numRows : Df → Nat
  | [] => 0
  | c :: _ => c.cells.length

/-- `row.get(col)` for row index `i`: the cell of the first column named
`col` (a missing cell reads as a non-string, as pandas would supply
`NaN`). -/
def getCell (df : Df) (col : String) (i : Nat) : Cell :=
  match df.find? (fun c => c.header = col) with
  | some c => c.cells.getD i (Cell.nonStr "nan")
  | none => Cell.nonStr "nan"

/-- The four derived values of one processed row. -/
structure RowDerived where
  dtBefore : Option Timestamp
  dtAfter : Option Timestamp
  intervalRaw : Option Int
  intervalStr : String
deriving DecidableEq, Repr

/-- One iteration of the row loop of `process_dataframe`
(src/app.py lines 121-142): resolve the before cell, then the after cell
(threading the cache), then compute the interval. -/
def processRow (fetch : String → Option String) (df : Df) (bcol acol : String)
    (cache : Cache) (i : Nat) : RowDerived × Cache × Nat :=
  let r1 := get_datetime_from_url fetch cache (getCell df bcol i)
  let r2 := get_datetime_from_url fetch r1.cache (getCell df acol i)
  let res := computeInterval r1.result r2.result
  (⟨r1.result, r2.result, res.1, res.2⟩, r2.cache,
    (if r1.fetched then 1 else 0) + (if r2.fetched then 1 else 0))

/-- The whole row loop over a list of row indices, threading the cache and
counting fetches. -/
def processRows (fetch : String → Option String) (df : Df) (bcol acol : String) :
    List Nat → Cache → List RowDerived × Cache × Nat
  | [], cache => ([], cache, 0)
  | i :: rest, cache =>
    match processRow fetch df bcol acol cache i with
    | (d, cache1, n1) =>
      match processRows fetch df bcol acol rest cache1 with
      | (ds, cache2, n2) => (d :: ds, cache2, n1 + n2)

/-- Decimal rendering of a `Nat` zero-padded to `w` digits (the
`strftime` field formats `%Y`, `%m`, `%d`, `%H`, `%M`, `%S`). -/
def fmtNat (w n : Nat) : String :=
  ⟨List.replicate (w - (toString n).length) '0' ++ (toString n).data⟩

/-- The preview lambda of src/app.py lines 161-163:
`x.strftime("%Y-%m-%d %H:%M:%S") if isinstance(x, dt.datetime) else ""`. -/
def fmtTimestamp : Option Timestamp → String
  | none => ""
  | some t =>
    fmtNat 4 t.year ++ "-" ++ fmtNat 2 t.month ++ "-" ++ fmtNat 2 t.day ++ " " ++
      fmtNat 2 t.hour ++ ":" ++ fmtNat 2 t.minute ++ ":" ++ fmtNat 2 t.second

/-- One rendered preview row: the two original photo cells and the three
formatted derived fields. -/
structure PreviewRow where
  beforeCell : Cell
  afterCell : Cell
  beforeStr : String
  afterStr : String
  intervalStr : String
deriving DecidableEq, Repr

/-- The rendered preview table (the `to_html` input: column order and
row contents, after `interval_minutes_raw` is dropped). -/
structure Preview where
  headers : List String
  rows : List PreviewRow
deriving DecidableEq, Repr

/-- A timestamp cell as pandas materializes it after the column
assignments of src/app.py lines 144-145: a real timestamp
(`pd.Timestamp`, in a `datetime64` column), `NaT` (the absent slot of a
`datetime64` column), or Python `None` (a slot of an all-`None` object
column). -/
inductive TsCell where
  | ts (t : Timestamp)
  | naT
  | pyNone
deriving DecidableEq, Repr

/-- Pandas column inference for `df[col] = list` on a list of `datetime`
and `None` (lines 144-145): with at least one real timestamp present the
column becomes `datetime64[ns]` and every `None` becomes `NaT`; an
all-`None` list stays an object column of `None`. -/
def coerceTsColumn (l : List (Option Timestamp)) : List TsCell :=
  if l.any Option.isSome then
    l.map (fun x =>
      match x with
      | some t => TsCell.ts t
      | none => TsCell.naT)
  else
    l.map (fun _ => TsCell.pyNone)

/-- The preview lambda of lines 161-163,
`x.strftime("%Y-%m-%d %H:%M:%S") if isinstance(x, dt.datetime) else ""`,
applied to one materialized cell.  Both `pd.Timestamp` and `NaT` are
`datetime` instances, so both take the `strftime` branch — and
`NaT.strftime` raises `ValueError`; only `None` reaches the `else`
branch. -/
def fmtTsCell : TsCell → Except String String
  | TsCell.ts t => Except.ok (fmtTimestamp (some t))
  | TsCell.naT => Except.error "NaTType does not support strftime"
  | TsCell.pyNone => Except.ok ""

/-- Rendering the preview rows for the given row indices from the
materialized timestamp columns; the first `NaT` hit aborts the build
with the `ValueError` it raises. -/
def buildPreviewRows (df : Df) (bcol acol : String)
    (beforeCol afterCol : List TsCell) (derived : List RowDerived) :
    List Nat → Except String (List PreviewRow)
  | [] => Except.ok []
  | i :: rest =>
    match fmtTsCell (beforeCol.getD i TsCell.pyNone),
        fmtTsCell (afterCol.getD i TsCell.pyNone) with
    | Except.ok bs, Except.ok afs =>
      match buildPreviewRows df bcol acol beforeCol afterCol derived rest with
      | Except.ok rows =>
        Except.ok
          ({ beforeCell := getCell df bcol i
             afterCell := getCell df acol i
             beforeStr := bs
             afterStr := afs
             intervalStr := (derived.getD i ⟨none, none, none, ""⟩).intervalStr } ::
            rows)
      | Except.error e => Except.error e
    | Except.error e, _ => Except.error e
    | _, Except.error e => Except.error e

/-- Building the preview (src/app.py lines 150-167): the timestamp lists
are first materialized as pandas columns (full length, lines 144-145),
then the first 15 rows are selected and formatted; a `NaT` among those
rows makes the formatting lambda raise, aborting the whole build. -/
def buildPreview (df : Df) (bcol acol : String) (derived : List RowDerived) :
    Except String Preview :=
  match buildPreviewRows df bcol acol
      (coerceTsColumn (derived.map RowDerived.dtBefore))
      (coerceTsColumn (derived.map RowDerived.dtAfter)) derived
      (List.range (min (numRows df) 15)) with
  | Except.ok rows =>
    Except.ok
      { headers := [bcol, acol, "Дата_время_до", "Дата_время_после", "Интервал_мин"]
        rows := rows }
  | Except.error e => Except.error e

/-- What `process_dataframe` returns on success: detected column labels,
the derived per-row values (the four appended columns), the rendered
preview, and the raw-minutes list taken from the preview frame.  The
raw-minutes list keeps the `Option Int` information content: pandas
materializes it as an `int64` column when every row has a value and as
`float64` when `None` is mixed in, so `tolist()` then yields exact
floats and `nan` — `some k` stands for the number `k` under either
dtype, `none` for `None`/`nan`. -/
structure ProcOutput where
  before_col : String
  after_col : String
  derived : List RowDerived
  preview : Preview
  intervalList : List (Option Int)
deriving DecidableEq, Repr

/-- Embedding of `process_dataframe` (src/app.py lines 108-175), with the
cache threaded and the fetch count recorded; the `ValueError` of the
detection-failure path becomes `Except.error`, as does the `ValueError`
that `NaT.strftime` raises out of the preview formatting (in both cases
the exception propagates to the caller; the module-level cache keeps
whatever the row loop wrote before the crash). -/
def process_dataframe (fetch : String → Option String) (df : Df) (cache : Cache) :
    Except String ProcOutput × Cache × Nat :=
  match detect_photo_columns df with
  | (some b, some a) =>
    match processRows fetch df b a (List.range (numRows df)) cache with
    | (derived, cache2, n) =>
      match buildPreview df b a derived with
      | Except.ok preview =>
        (Except.ok
          { before_col := b
            after_col := a
            derived := derived
            preview := preview
            intervalList := (derived.map RowDerived.intervalRaw).take 15 }, cache2, n)
      | Except.error e => (Except.error e, cache2, n)
  | (_, _) =>
    (Except.error
      "Не найдены два столбца со ссылками на фото (столбцы Фото ДО и Фото ПОСЛЕ).",
      cache, 0)

/-- C8: when column detection leaves either key absent, `process_dataframe`
fails with a descriptive error and does nothing else: no row is
processed, no URL is resolved (fetch count 0), the cache is untouched and
no output is produced. -/
theorem process_c8 (fetch : String → Option String) (df : Df) (cache : Cache)
    (h : (detect_photo_columns df).1 = none ∨ (detect_photo_columns df).2 = none) :
    process_dataframe fetch df cache =
      (Except.error
        "Не найдены два столбца со ссылками на фото (столбцы Фото ДО и Фото ПОСЛЕ).",
        cache, 0) := by
  rcases hd : detect_photo_columns df with ⟨bo, ao⟩
  rw [hd] at h
  cases bo with
  | none => simp only [process_dataframe, hd]
  | some b =>
    cases ao with
    | none => simp only [process_dataframe, hd]
    | some a =>
      rcases h with h1 | h1 <;> exact Option.noConfusion h1

/-- Concrete instance of `process_c8`: the empty dataframe has no
detectable columns, so processing fails, touching nothing. -/
theorem process_c8_w :
    process_dataframe (fun _ => none) [] [] =
      (Except.error
        "Не найдены два столбца со ссылками на фото (столбцы Фото ДО и Фото ПОСЛЕ).",
        [], 0) :=
  process_c8 (fun _ => none) [] [] (Or.inl (by decide))


/-- C9: the claim fails on the code — a code bug, for the spec and the
`else ""` branch of the preview lambda clearly intend absent timestamps
to render as the empty string.  On this dataset detection succeeds (the
claim's precondition), the second row's before-URL resolves to absence
while the first resolves to a timestamp, so the Дата_время_до column
(lines 144-145) is materialized as `datetime64` with `NaT` in row 2;
`NaT` passes `isinstance(x, dt.datetime)`, `NaT.strftime` raises
`ValueError`, and `process_dataframe` aborts with that error instead of
producing a preview with `""` in that cell.  The fetch oracle here
returns the requested URL itself as the final URL. -/
theorem process_c9_natcrash :
    detect_photo_columns
      [⟨"A", true, [Cell.str "saved-20240101_100000", Cell.str "nope"]⟩,
       ⟨"B", true,
        [Cell.str "saved-20240101_104500", Cell.str "saved-20240101_114500"]⟩] =
      (some "A", some "B") ∧
    (process_dataframe (fun u => some u)
      [⟨"A", true, [Cell.str "saved-20240101_100000", Cell.str "nope"]⟩,
       ⟨"B", true,
        [Cell.str "saved-20240101_104500", Cell.str "saved-20240101_114500"]⟩]
      []).1 = Except.error "NaTType does not support strftime" := by
  constructor
  · decide
  · rfl
